import Mathlib

/-!
Verification of the oocla-rs out-of-core matrix store: a shallow embedding of
`src/dense_matrix.rs` and `src/disk_matrix.rs`.

Modelling conventions:
* `u64` fields are `Nat`; arithmetic the Rust code performs on `u64` values is
  taken modulo `2^64` (`U64_MOD`) where the code could wrap.
* `usize` counters inside the index generator are plain `Nat`: every value the
  generator can reach while traversing a mapped region is bounded by the
  mapped length, so machine-width wrap-around cannot occur there.
* The happy path of `create` is modelled as a pure function from the prior
  contents of the header region (the bytes already in the file, zero for a
  freshly created file) to the installed header and the file length passed to
  `set_len`/`mmap`.  I/O and mmap failures are environmental and are outside
  the modelled success path.
* `Drop` is modelled as a function of the `munmap` result supplied by the
  environment; `Result::unwrap` panicking on `Err` is modelled by a
  `DropOutcome` that distinguishes normal return from panic.
-/

namespace Oocla

/-- Fixed header size in bytes (`HEADER_SIZE` in both source files). -/
def HEADER_SIZE : Nat := 64

/-- Modulus of Rust's `u64`. -/
def U64_MOD : Nat := 2 ^ 64

/-- `FloatType` from both source files: the runtime element-kind tag. -/
inductive FloatType where
  | Single
  | Double
deriving DecidableEq, Repr

/-- `FloatType::get_width` from `disk_matrix.rs`: element width in bytes. -/
def FloatType.get_width : FloatType → Nat
  | .Single => 4
  | .Double => 8

/-- `MatrixHeader` from both source files (identical layout in both). -/
structure MatrixHeader where
  magic : Nat
  num_rows : Nat
  num_cols : Nat
  representation : FloatType
  lda : Nat
  transposed : Bool
deriving DecidableEq, Repr

/-- The header view of a freshly created, zero-filled file region. -/
def zeroHeader : MatrixHeader :=
  { magic := 0, num_rows := 0, num_cols := 0, representation := .Single,
    lda := 0, transposed := false }

/-- The `SupportedType` trait of `dense_matrix.rs`: a compile-time element
type exposes its runtime tag; we also record `mem::size_of::<T>()`, which
`Dense::compute_length` uses. -/
structure SupportedType where
  size_of : Nat
  float_type : FloatType
deriving DecidableEq, Repr

/-- The only `SupportedType` instance in the source: `f32`
(`get_float_type() = FloatType::Single`, `mem::size_of::<f32>() = 4`). -/
def f32Info : SupportedType := { size_of := 4, float_type := .Single }

namespace Dense

/-- `Dense::compute_length`: `HEADER_SIZE as u64 + rows * cols *
mem::size_of::<T>() as u64`, performed in `u64` arithmetic. -/
def compute_length (info : SupportedType) (rows cols : Nat) : Nat :=
  (HEADER_SIZE + rows * cols * info.size_of) % U64_MOD

/-- The header-field assignments performed at the end of `Dense::create`:
the pre-existing header bytes `pre` are overwritten field by field.  Note the
source assigns `num_rows`, `num_cols`, `representation`, `transposed` and
`lda` — and nothing else. -/
def installHeader (pre : MatrixHeader) (info : SupportedType)
    (rows cols : Nat) : MatrixHeader :=
  { pre with
    num_rows := rows
    num_cols := cols
    representation := info.float_type
    transposed := false
    lda := cols }

/-- Result of the happy path of `Dense::create`: the length the file is
resized to (and the mapping covers), and the installed header. -/
structure CreateResult where
  file_len : Nat
  header : MatrixHeader
deriving DecidableEq, Repr

/-- Happy path of `Dense::create`: resize the file to `compute_length`,
map it, and install the header fields over the prior contents `pre`. -/
def create (pre : MatrixHeader) (info : SupportedType)
    (rows cols : Nat) : CreateResult :=
  { file_len := compute_length info rows cols
    header := installHeader pre info rows cols }

/-- `Dense::num_rows`. -/
def num_rows (h : MatrixHeader) : Nat := h.num_rows

/-- `Dense::num_cols`. -/
def num_cols (h : MatrixHeader) : Nat := h.num_cols

/-- `Dense::transpose`: `transposed ^= true` then
`mem::swap(&mut num_rows, &mut num_cols)`. -/
def transpose (h : MatrixHeader) : MatrixHeader :=
  { h with
    transposed := !h.transposed
    num_rows := h.num_cols
    num_cols := h.num_rows }

end Dense

namespace DiskMatrix

/-- `DiskMatrix::compute_length`: `HEADER_SIZE as u64 + rows * cols *
repr.get_width() as u64` in `u64` arithmetic. -/
def compute_length (rows cols : Nat) (repr : FloatType) : Nat :=
  (HEADER_SIZE + rows * cols * repr.get_width) % U64_MOD

/-- The header-field assignments performed at the end of
`DiskMatrix::create`; here `lda` is in bytes:
`cols * representation.get_width() as u64`. -/
def installHeader (pre : MatrixHeader) (rows cols : Nat)
    (representation : FloatType) : MatrixHeader :=
  { pre with
    num_rows := rows
    num_cols := cols
    representation := representation
    transposed := false
    lda := (cols * representation.get_width) % U64_MOD }

/-- Result of the happy path of `DiskMatrix::create`. -/
structure CreateResult where
  file_len : Nat
  header : MatrixHeader
deriving DecidableEq, Repr

/-- Happy path of `DiskMatrix::create`. -/
def create (pre : MatrixHeader) (rows cols : Nat)
    (representation : FloatType) : CreateResult :=
  { file_len := compute_length rows cols representation
    header := installHeader pre rows cols representation }

end DiskMatrix

/-- `ElementIterCommon` from `dense_matrix.rs`: the strided index generator's
state. -/
structure ElementIterCommon where
  major_size : Nat
  minor_size : Nat
  major_index : Nat
  major_offset : Nat
  minor_offset : Nat
  lda : Nat
  transposed : Bool
deriving DecidableEq, Repr

namespace ElementIterCommon

/-- `ElementIterCommon::next_index`: advance the cursor, then emit
`major_offset + minor_offset` while `major_index < major_size`.  Returns the
emitted offset (if any) together with the updated state. -/
def next_index (s : ElementIterCommon) : Option Nat × ElementIterCommon :=
  let s' :=
    if s.minor_offset + 1 < s.minor_size then
      { s with minor_offset := s.minor_offset + 1 }
    else
      { s with
        minor_offset := 0
        major_index := s.major_index + 1
        major_offset := s.major_offset + s.lda }
  if s'.major_index < s'.major_size then
    (some (s'.major_offset + s'.minor_offset), s')
  else
    (none, s')

/-- `ElementIterCommon::get_row`. -/
def get_row (s : ElementIterCommon) : Nat :=
  if s.transposed then s.minor_offset else s.major_index

/-- `ElementIterCommon::get_col`. -/
def get_col (s : ElementIterCommon) : Nat :=
  if s.transposed then s.major_index else s.minor_offset

end ElementIterCommon

namespace Dense

/-- `Dense::create_index_generator`: read the logical dimensions from the
header, swap them back to physical (major, minor) order when `transposed`,
and start the cursor at zero. -/
def create_index_generator (h : MatrixHeader) : ElementIterCommon :=
  let p : Nat × Nat := (h.num_rows, h.num_cols)
  let p := if h.transposed then (p.2, p.1) else p
  { major_size := p.1
    minor_size := p.2
    major_index := 0
    major_offset := 0
    minor_offset := 0
    lda := h.lda
    transposed := h.transposed }

end Dense

/-- One step record of a traversal: the emitted linear offset together with
the `get_row()`/`get_col()` values readable right after that step. -/
structure Visit where
  offset : Nat
  row : Nat
  col : Nat
deriving DecidableEq, Repr

namespace ElementIterCommon

/-- Run the generator for at most `fuel` steps, recording each emitted offset
with the coordinates reported at that point.  The loop in the source stops at
the first `None`, which we mirror; `fuel` only bounds the recursion. -/
def run (fuel : Nat) (s : ElementIterCommon) : List Visit :=
  match fuel with
  | 0 => []
  | fuel + 1 =>
    match s.next_index with
    | (none, _) => []
    | (some idx, s') =>
      { offset := idx, row := s'.get_row, col := s'.get_col } :: run fuel s'

end ElementIterCommon

namespace Dense

/-- Enough fuel to exhaust any traversal of this generator. -/
def fullFuel (h : MatrixHeader) : Nat :=
  let g := create_index_generator h
  g.major_size * g.minor_size + 1

/-- The complete traversal a fresh `element_iter` (or `element_iter_mut`)
performs over a matrix whose header is `h`: all visits until `next_index`
returns `None`. -/
def traversal (h : MatrixHeader) : List Visit :=
  ElementIterCommon.run (fullFuel h) (create_index_generator h)

end Dense

/-- `ElementIter` from `dense_matrix.rs`: the read-only iterator, a generator
plus the data pointer.  The mapped element region is modelled as a total map
from linear element offsets to values (pointer reads never fail on the
non-null mapped region, matching `as_ref` returning `Some`). -/
structure ElementIter (α : Type) where
  generator : ElementIterCommon
  data : Nat → α

/-- `Iterator::next` for `ElementIter`: drive the generator, then read
`data.offset(idx)`. -/
def ElementIter.next (it : ElementIter α) : Option α × ElementIter α :=
  match it.generator.next_index with
  | (none, g) => (none, { it with generator := g })
  | (some idx, g) => (some (it.data idx), { it with generator := g })

/-- `ElementIter::get_row`, delegating to the generator. -/
def ElementIter.get_row (it : ElementIter α) : Nat := it.generator.get_row

/-- `ElementIter::get_col`, delegating to the generator. -/
def ElementIter.get_col (it : ElementIter α) : Nat := it.generator.get_col

/-- `ElementIterMut` from `dense_matrix.rs`: the mutable iterator (fields in
source order: data pointer, then generator). -/
structure ElementIterMut (α : Type) where
  data : Nat → α
  generator : ElementIterCommon

/-- `Iterator::next` for `ElementIterMut`: drive the generator, then take
`data.offset(idx)` as a mutable reference; the value referred to is the same
element the read-only iterator would yield. -/
def ElementIterMut.next (it : ElementIterMut α) : Option α × ElementIterMut α :=
  match it.generator.next_index with
  | (none, g) => (none, { it with generator := g })
  | (some idx, g) => (some (it.data idx), { it with generator := g })

/-- `ElementIterMut::get_row`, delegating to the generator. -/
def ElementIterMut.get_row (it : ElementIterMut α) : Nat := it.generator.get_row

/-- `ElementIterMut::get_col`, delegating to the generator. -/
def ElementIterMut.get_col (it : ElementIterMut α) : Nat := it.generator.get_col

/-- Run `ElementIter` to exhaustion (bounded by `fuel`), recording at each
step the linear offset the generator emitted, the reported coordinates, and
the element value yielded. -/
def ElementIter.runTrace (fuel : Nat) (it : ElementIter α) :
    List (Visit × α) :=
  match fuel with
  | 0 => []
  | fuel + 1 =>
    match it.generator.next_index with
    | (none, _) => []
    | (some idx, g) =>
      ({ offset := idx, row := g.get_row, col := g.get_col }, it.data idx) ::
        ElementIter.runTrace fuel { it with generator := g }

/-- Run `ElementIterMut` to exhaustion (bounded by `fuel`), recording the
same step data as the read-only trace. -/
def ElementIterMut.runTrace (fuel : Nat) (it : ElementIterMut α) :
    List (Visit × α) :=
  match fuel with
  | 0 => []
  | fuel + 1 =>
    match it.generator.next_index with
    | (none, _) => []
    | (some idx, g) =>
      ({ offset := idx, row := g.get_row, col := g.get_col }, it.data idx) ::
        ElementIterMut.runTrace fuel { it with generator := g }

namespace Dense

/-- A `Dense<T>` matrix's observable state: the header view and the mapped
element data region (a total map from element offsets to values). -/
structure State (α : Type) where
  header : MatrixHeader
  data : Nat → α

/-- `Dense::transpose` on the whole matrix state: the source only mutates
header fields through `get_header_mut`; the data region is untouched. -/
def transposeState (m : State α) : State α :=
  { m with header := transpose m.header }

/-- `Dense::element_iter`: a fresh generator over the current header plus the
data pointer. -/
def element_iter (m : State α) : ElementIter α :=
  { generator := create_index_generator m.header, data := m.data }

/-- `Dense::element_iter_mut`: same construction with the mutable data
pointer. -/
def element_iter_mut (m : State α) : ElementIterMut α :=
  { data := m.data, generator := create_index_generator m.header }

end Dense

/-- Outcome of a `Drop` implementation: returning normally, or panicking
(`Result::unwrap` on an `Err`). -/
inductive DropOutcome where
  | normal
  | panicked
deriving DecidableEq, Repr

/-- `Result::unwrap` applied to the `munmap` return value: `Ok` continues,
`Err` panics. -/
def unwrapMunmap (r : Except Nat Unit) : DropOutcome :=
  match r with
  | .ok _ => .normal
  | .error _ => .panicked

namespace Dense

/-- The byte length `Drop for Dense` recomputes from the current header:
`Self::compute_length(header.num_rows, header.num_cols)`. -/
def dropLength (info : SupportedType) (h : MatrixHeader) : Nat :=
  compute_length info h.num_rows h.num_cols

/-- `Drop for Dense`: recompute the length from the current header, call
`munmap` (the environment's behaviour, a function from the requested length
to a result), and `unwrap` the result. -/
def dropRun (info : SupportedType) (h : MatrixHeader)
    (munmap : Nat → Except Nat Unit) : DropOutcome :=
  unwrapMunmap (munmap (dropLength info h))

end Dense

namespace DiskMatrix

/-- The byte length `Drop for DiskMatrix` recomputes from the current header:
`Self::compute_length(header.num_rows, header.num_cols, header.representation)`. -/
def dropLength (h : MatrixHeader) : Nat :=
  compute_length h.num_rows h.num_cols h.representation

/-- `Drop for DiskMatrix`: recompute the length, call `munmap`, `unwrap`. -/
def dropRun (h : MatrixHeader) (munmap : Nat → Except Nat Unit) : DropOutcome :=
  unwrapMunmap (munmap (dropLength h))

end DiskMatrix

/-- Swap the reported row and column of one visit (the relabelling a
transpose applies to coordinate reporting). -/
def Visit.swapRC (v : Visit) : Visit :=
  { offset := v.offset, row := v.col, col := v.row }

/-- The generator-state invariant maintained by `next_index`: the running
`major_offset` is always `major_index * lda`. -/
def GenInv (s : ElementIterCommon) : Prop :=
  s.major_offset = s.major_index * s.lda

instance (s : ElementIterCommon) : Decidable (GenInv s) := by
  unfold GenInv; infer_instance

/-- Strengthened invariant for in-bounds traversal of an `M × N` physical
layout with `lda = N`: cursor fields stay in range and `major_offset` tracks
`major_index * N`. -/
def BoundedInv (M N : Nat) (s : ElementIterCommon) : Prop :=
  s.major_size = M ∧ s.minor_size = N ∧ s.lda = N ∧
    s.major_offset = s.major_index * N ∧ s.minor_offset < N

lemma Dense.transpose_transpose (h : MatrixHeader) :
    Dense.transpose (Dense.transpose h) = h := by
  cases h
  simp [Dense.transpose]

lemma Dense.transpose_iterate (h : MatrixHeader) (k : Nat) :
    Dense.transpose^[k] h = if k % 2 = 0 then h else Dense.transpose h := by
  induction k with
  | zero => simp
  | succ n ih =>
    rw [Function.iterate_succ_apply', ih]
    by_cases hn : n % 2 = 0
    · have h1 : ¬ (n + 1) % 2 = 0 := by omega
      simp [hn, h1]
    · have h1 : (n + 1) % 2 = 0 := by omega
      simp [hn, h1, Dense.transpose_transpose]

lemma ElementIterCommon.next_index_preserves_transposed (s : ElementIterCommon) :
    (s.next_index).2.transposed = s.transposed := by
  obtain ⟨M, N, mi, mo, no, l, t⟩ := s
  simp only [next_index]
  split_ifs <;> rfl

lemma ElementIterCommon.next_index_set_transposed (s : ElementIterCommon) (b : Bool) :
    ({ s with transposed := b } : ElementIterCommon).next_index =
      ((s.next_index).1, { (s.next_index).2 with transposed := b }) := by
  obtain ⟨M, N, mi, mo, no, l, t⟩ := s
  simp only [next_index]
  split_ifs <;> rfl

lemma ElementIterCommon.get_row_set_transposed (s : ElementIterCommon) :
    ({ s with transposed := !s.transposed } : ElementIterCommon).get_row = s.get_col := by
  obtain ⟨M, N, mi, mo, no, l, t⟩ := s
  cases t <;> rfl

lemma ElementIterCommon.get_col_set_transposed (s : ElementIterCommon) :
    ({ s with transposed := !s.transposed } : ElementIterCommon).get_col = s.get_row := by
  obtain ⟨M, N, mi, mo, no, l, t⟩ := s
  cases t <;> rfl

lemma ElementIterCommon.run_set_transposed (fuel : Nat) (s : ElementIterCommon) :
    ElementIterCommon.run fuel { s with transposed := !s.transposed } =
      (ElementIterCommon.run fuel s).map Visit.swapRC := by
  induction fuel generalizing s with
  | zero => rfl
  | succ n ih =>
    have hset := s.next_index_set_transposed (!s.transposed)
    rcases hstep : s.next_index with ⟨o, s'⟩
    rw [hstep] at hset
    have htr : s'.transposed = s.transposed := by
      have := s.next_index_preserves_transposed
      rw [hstep] at this
      exact this
    cases o with
    | none => simp [run, hstep, hset]
    | some idx =>
      have hrow := s'.get_row_set_transposed
      have hcol := s'.get_col_set_transposed
      rw [htr] at hrow hcol
      simp only [run, hstep, hset, List.map_cons, Visit.swapRC, hrow, hcol]
      have := ih s'
      rw [htr] at this
      rw [this]

lemma Dense.gen_transposed_field (h : MatrixHeader) :
    (Dense.create_index_generator h).transposed = h.transposed := rfl

lemma Dense.gen_transpose (h : MatrixHeader) :
    Dense.create_index_generator (Dense.transpose h) =
      { Dense.create_index_generator h with transposed := !h.transposed } := by
  obtain ⟨m, r, c, rep, l, t⟩ := h
  cases t <;> rfl

lemma Dense.fullFuel_transpose (h : MatrixHeader) :
    Dense.fullFuel (Dense.transpose h) = Dense.fullFuel h := by
  obtain ⟨m, r, c, rep, l, t⟩ := h
  cases t <;> rfl

lemma ElementIterCommon.next_index_geninv (s s' : ElementIterCommon) (idx : Nat)
    (hs : GenInv s) (hstep : s.next_index = (some idx, s')) :
    idx = s'.major_index * s'.lda + s'.minor_offset ∧ GenInv s' := by
  obtain ⟨M, N, mi, mo, no, l, t⟩ := s
  unfold GenInv at hs
  simp only at hs
  subst hs
  simp only [next_index] at hstep
  unfold GenInv
  split_ifs at hstep with h1 h2 h2
  · obtain ⟨hidx, hs'⟩ := Prod.mk.injEq .. |>.mp hstep
    subst hs'
    simp_all
  · exact absurd hstep (by simp)
  · obtain ⟨hidx, hs'⟩ := Prod.mk.injEq .. |>.mp hstep
    subst hs'
    simp_all [Nat.succ_mul]
  · exact absurd hstep (by simp)

lemma ElementIterCommon.next_index_bounded (M N : Nat) (hN : 1 ≤ N)
    (s s' : ElementIterCommon) (idx : Nat)
    (hs : BoundedInv M N s) (hstep : s.next_index = (some idx, s')) :
    idx < M * N ∧ BoundedInv M N s' := by
  obtain ⟨ms, ns, mi, mo, no, l, t⟩ := s
  obtain ⟨hM, hNs, hl, hmo, hno⟩ := hs
  simp only at hM hNs hl hmo hno
  subst hM hNs hl hmo
  unfold BoundedInv
  simp only [next_index, Prod.mk.injEq, Option.some.injEq] at hstep
  split_ifs at hstep with h1 h2 h2
  · obtain ⟨rfl, rfl⟩ := hstep
    have h2' : mi < ms := h2
    refine ⟨?_, rfl, rfl, rfl, rfl, h1⟩
    show mi * l + (no + 1) < ms * l
    calc mi * l + (no + 1) < mi * l + l := by omega
      _ = (mi + 1) * l := (Nat.succ_mul mi l).symm
      _ ≤ ms * l := Nat.mul_le_mul (by omega) (le_refl l)
  · exact absurd hstep (by simp)
  · obtain ⟨rfl, rfl⟩ := hstep
    have h2' : mi + 1 < ms := h2
    refine ⟨?_, rfl, rfl, rfl, ?_, ?_⟩
    · show mi * l + l + 0 < ms * l
      calc mi * l + l + 0 = (mi + 1) * l := by rw [Nat.succ_mul]; omega
        _ < ms * l := mul_lt_mul_of_pos_right h2' (by omega)
    · show mi * l + l = (mi + 1) * l
      rw [Nat.succ_mul]
    · show 0 < l
      omega
  · exact absurd hstep (by simp)

lemma ElementIterCommon.run_bounded (M N : Nat) (hN : 1 ≤ N) (fuel : Nat)
    (s : ElementIterCommon) (hs : BoundedInv M N s) :
    ∀ v ∈ ElementIterCommon.run fuel s, v.offset < M * N := by
  induction fuel generalizing s with
  | zero => simp [run]
  | succ n ih =>
    rcases hstep : s.next_index with ⟨o, s'⟩
    cases o with
    | none => simp [run, hstep]
    | some idx =>
      obtain ⟨hlt, hs'⟩ := next_index_bounded M N hN s s' idx hs hstep
      intro v hv
      simp only [run, hstep, List.mem_cons] at hv
      rcases hv with hv | hv
      · rw [hv]
        exact hlt
      · exact ih s' hs' v hv

lemma Dense.gen_after_transposes (pre : MatrixHeader) (info : SupportedType)
    (rows cols k : Nat) :
    Dense.create_index_generator
        (Dense.transpose^[k] (Dense.create pre info rows cols).header) =
      { major_size := rows, minor_size := cols, major_index := 0,
        major_offset := 0, minor_offset := 0, lda := cols,
        transposed := if k % 2 = 0 then false else true } := by
  rw [Dense.transpose_iterate]
  by_cases hk : k % 2 = 0 <;> simp [hk] <;> rfl

lemma runTrace_eq_aux (α : Type) (fuel : Nat) (g : ElementIterCommon)
    (d : Nat → α) :
    ElementIter.runTrace fuel ⟨g, d⟩ = ElementIterMut.runTrace fuel ⟨d, g⟩ := by
  induction fuel generalizing g with
  | zero => rfl
  | succ n ih =>
    rcases hstep : g.next_index with ⟨o, g2⟩
    cases o with
    | none => simp [ElementIter.runTrace, ElementIterMut.runTrace, hstep]
    | some idx => simp [ElementIter.runTrace, ElementIterMut.runTrace, hstep, ih]

/-- C1: the claim says a complete `element_iter` traversal of an R×C matrix
visits exactly R·C positions covering the full rectangle.  The code violates
this: `next_index` advances the cursor before emitting, so linear offset 0 —
position (0,0) — is never visited.  Evaluated at the failing inputs: a 1×1
matrix's traversal is empty (even with generous fuel), and a 2×3 matrix's
traversal has only 5 visits, none of them at (0,0). -/
theorem c1_traversal_misses_first_position :
    Dense.traversal (Dense.create zeroHeader f32Info 1 1).header = [] ∧
    ElementIterCommon.run 100
        (Dense.create_index_generator (Dense.create zeroHeader f32Info 1 1).header) = [] ∧
    (Dense.traversal (Dense.create zeroHeader f32Info 2 3).header).length = 5 ∧
    (∀ v ∈ Dense.traversal (Dense.create zeroHeader f32Info 2 3).header,
      ¬(v.row = 0 ∧ v.col = 0)) ∧
    ElementIterCommon.run 100
        (Dense.create_index_generator (Dense.create zeroHeader f32Info 2 3).header) =
      Dense.traversal (Dense.create zeroHeader f32Info 2 3).header := by
  decide

/-- C2: a successful `create` resizes the backing file to exactly
`HEADER_SIZE + rows·cols·width` bytes and installs the header with the given
dimensions, the representation tag, `transposed = false`, and `lda = cols` in
the design's unit (elements for `Dense`, bytes for `DiskMatrix`), provided
the `u64` length computations do not wrap. -/
theorem c2_create_file_length_and_header (pre : MatrixHeader)
    (info : SupportedType) (rows cols : Nat) (rep : FloatType)
    (hD : HEADER_SIZE + rows * cols * info.size_of < U64_MOD)
    (hK : HEADER_SIZE + rows * cols * rep.get_width < U64_MOD)
    (hL : cols * rep.get_width < U64_MOD) :
    (Dense.create pre info rows cols).file_len =
        HEADER_SIZE + rows * cols * info.size_of ∧
    (Dense.create pre info rows cols).header.num_rows = rows ∧
    (Dense.create pre info rows cols).header.num_cols = cols ∧
    (Dense.create pre info rows cols).header.representation = info.float_type ∧
    (Dense.create pre info rows cols).header.transposed = false ∧
    (Dense.create pre info rows cols).header.lda = cols ∧
    (DiskMatrix.create pre rows cols rep).file_len =
        HEADER_SIZE + rows * cols * rep.get_width ∧
    (DiskMatrix.create pre rows cols rep).header.num_rows = rows ∧
    (DiskMatrix.create pre rows cols rep).header.num_cols = cols ∧
    (DiskMatrix.create pre rows cols rep).header.representation = rep ∧
    (DiskMatrix.create pre rows cols rep).header.transposed = false ∧
    (DiskMatrix.create pre rows cols rep).header.lda = cols * rep.get_width := by
  refine ⟨?_, rfl, rfl, rfl, rfl, rfl, ?_, rfl, rfl, rfl, rfl, ?_⟩
  · exact Nat.mod_eq_of_lt hD
  · exact Nat.mod_eq_of_lt hK
  · exact Nat.mod_eq_of_lt hL

/-- Witness for C2 at `rows = 2`, `cols = 3`, an `f32` `Dense` matrix and a
double-precision `DiskMatrix`. -/
theorem c2_create_file_length_and_header_witness :
    HEADER_SIZE + 2 * 3 * f32Info.size_of < U64_MOD ∧
    HEADER_SIZE + 2 * 3 * FloatType.Double.get_width < U64_MOD ∧
    3 * FloatType.Double.get_width < U64_MOD ∧
    ((Dense.create zeroHeader f32Info 2 3).file_len =
        HEADER_SIZE + 2 * 3 * f32Info.size_of ∧
     (Dense.create zeroHeader f32Info 2 3).header.num_rows = 2 ∧
     (Dense.create zeroHeader f32Info 2 3).header.num_cols = 3 ∧
     (Dense.create zeroHeader f32Info 2 3).header.representation = f32Info.float_type ∧
     (Dense.create zeroHeader f32Info 2 3).header.transposed = false ∧
     (Dense.create zeroHeader f32Info 2 3).header.lda = 3 ∧
     (DiskMatrix.create zeroHeader 2 3 FloatType.Double).file_len =
        HEADER_SIZE + 2 * 3 * FloatType.Double.get_width ∧
     (DiskMatrix.create zeroHeader 2 3 FloatType.Double).header.num_rows = 2 ∧
     (DiskMatrix.create zeroHeader 2 3 FloatType.Double).header.num_cols = 3 ∧
     (DiskMatrix.create zeroHeader 2 3 FloatType.Double).header.representation = FloatType.Double ∧
     (DiskMatrix.create zeroHeader 2 3 FloatType.Double).header.transposed = false ∧
     (DiskMatrix.create zeroHeader 2 3 FloatType.Double).header.lda =
        3 * FloatType.Double.get_width) :=
  ⟨by decide, by decide, by decide,
    c2_create_file_length_and_header zeroHeader f32Info 2 3 FloatType.Double
      (by decide) (by decide) (by decide)⟩

/-- C3 counterexample: the claim says `create` writes the 8-byte magic field
as part of creation.  It does not: neither `Dense::create` nor
`DiskMatrix::create` assigns `header.magic`, so after creation the field
still holds whatever the backing file region held before (7 below), rather
than any format identifier chosen by the code. -/
theorem c3_magic_reflects_prior_contents :
    (Dense.create { zeroHeader with magic := 7 } f32Info 2 3).header.magic = 7 ∧
    (Dense.create zeroHeader f32Info 2 3).header.magic = 0 ∧
    (DiskMatrix.create { zeroHeader with magic := 7 } 2 3 FloatType.Single).header.magic = 7 ∧
    (DiskMatrix.create zeroHeader 2 3 FloatType.Single).header.magic = 0 := by
  decide

/-- C3 amended: creation installs every other header field but never writes
`magic`; the field keeps the prior contents of the mapped header region
(zero for a freshly created, zero-filled file). -/
theorem c3_magic_left_unwritten (pre : MatrixHeader) (info : SupportedType)
    (rows cols : Nat) (rep : FloatType) :
    (Dense.create pre info rows cols).header.magic = pre.magic ∧
    (DiskMatrix.create pre rows cols rep).header.magic = pre.magic :=
  ⟨rfl, rfl⟩

/-- C4: `transpose` is self-inverse — two applications restore the original
header (dimensions and `transposed` flag), and a fresh traversal afterwards
is identical to one before. -/
theorem c4_transpose_self_inverse (h : MatrixHeader) :
    Dense.transpose (Dense.transpose h) = h ∧
    Dense.num_rows (Dense.transpose (Dense.transpose h)) = Dense.num_rows h ∧
    Dense.num_cols (Dense.transpose (Dense.transpose h)) = Dense.num_cols h ∧
    (Dense.transpose (Dense.transpose h)).transposed = h.transposed ∧
    Dense.traversal (Dense.transpose (Dense.transpose h)) = Dense.traversal h := by
  have ht := Dense.transpose_transpose h
  rw [ht]
  exact ⟨rfl, rfl, rfl, rfl, rfl⟩

/-- C5: every offset `next_index` emits from an invariant-respecting state
equals `major_index · lda + minor_offset` for the state at that point, the
invariant is maintained and holds for a freshly created generator, the
reported coordinates are (major_index, minor_offset) when not transposed and
swapped when transposed, and the generator's extents are the header's
dimensions swapped back to physical order when `transposed` is set. -/
theorem c5_generator_offset_and_coordinates (h : MatrixHeader)
    (s s' : ElementIterCommon) (idx : Nat)
    (hs : GenInv s) (hstep : s.next_index = (some idx, s')) :
    idx = s'.major_index * s'.lda + s'.minor_offset ∧
    GenInv s' ∧
    (s'.transposed = false →
      s'.get_row = s'.major_index ∧ s'.get_col = s'.minor_offset) ∧
    (s'.transposed = true →
      s'.get_row = s'.minor_offset ∧ s'.get_col = s'.major_index) ∧
    GenInv (Dense.create_index_generator h) ∧
    (Dense.create_index_generator h).major_size =
      (if h.transposed then h.num_cols else h.num_rows) ∧
    (Dense.create_index_generator h).minor_size =
      (if h.transposed then h.num_rows else h.num_cols) := by
  obtain ⟨hidx, hinv⟩ := ElementIterCommon.next_index_geninv s s' idx hs hstep
  refine ⟨hidx, hinv, ?_, ?_, ?_, ?_, ?_⟩
  · intro ht
    simp [ElementIterCommon.get_row, ElementIterCommon.get_col, ht]
  · intro ht
    simp [ElementIterCommon.get_row, ElementIterCommon.get_col, ht]
  · unfold GenInv Dense.create_index_generator
    simp
  · obtain ⟨m, r, c, rep, l, t⟩ := h
    cases t <;> rfl
  · obtain ⟨m, r, c, rep, l, t⟩ := h
    cases t <;> rfl

/-- First step of the generator for an untransposed 2×3 header. -/
def genStep0 : ElementIterCommon :=
  ⟨2, 3, 0, 0, 0, 3, false⟩

/-- State after one `next_index` call on `genStep0`. -/
def genStep1 : ElementIterCommon :=
  ⟨2, 3, 0, 0, 1, 3, false⟩

/-- Witness for C5 at the first step of a 2×3 traversal. -/
theorem c5_generator_offset_and_coordinates_witness :
    GenInv genStep0 ∧
    genStep0.next_index = (some 1, genStep1) ∧
    (1 = genStep1.major_index * genStep1.lda + genStep1.minor_offset ∧
     GenInv genStep1 ∧
     (genStep1.transposed = false →
       genStep1.get_row = genStep1.major_index ∧
         genStep1.get_col = genStep1.minor_offset) ∧
     (genStep1.transposed = true →
       genStep1.get_row = genStep1.minor_offset ∧
         genStep1.get_col = genStep1.major_index) ∧
     GenInv (Dense.create_index_generator (Dense.create zeroHeader f32Info 2 3).header) ∧
     (Dense.create_index_generator (Dense.create zeroHeader f32Info 2 3).header).major_size =
       (if (Dense.create zeroHeader f32Info 2 3).header.transposed then
         (Dense.create zeroHeader f32Info 2 3).header.num_cols
       else (Dense.create zeroHeader f32Info 2 3).header.num_rows) ∧
     (Dense.create_index_generator (Dense.create zeroHeader f32Info 2 3).header).minor_size =
       (if (Dense.create zeroHeader f32Info 2 3).header.transposed then
         (Dense.create zeroHeader f32Info 2 3).header.num_rows
       else (Dense.create zeroHeader f32Info 2 3).header.num_cols)) :=
  ⟨by decide, by decide,
    c5_generator_offset_and_coordinates (Dense.create zeroHeader f32Info 2 3).header
      genStep0 genStep1 1 (by decide) (by decide)⟩

/-- C6: the row·column product is invariant under any number of transposes,
so the byte length `Drop` recomputes from the current header equals the
length originally passed to `mmap` at creation — for `Dense` after `k`
transpose calls, and for `DiskMatrix` (which has no mutator). -/
theorem c6_teardown_length_matches_creation (pre : MatrixHeader)
    (info : SupportedType) (rows cols k : Nat) (rep : FloatType) :
    (Dense.transpose^[k] (Dense.create pre info rows cols).header).num_rows *
        (Dense.transpose^[k] (Dense.create pre info rows cols).header).num_cols =
      rows * cols ∧
    Dense.dropLength info (Dense.transpose^[k] (Dense.create pre info rows cols).header) =
      (Dense.create pre info rows cols).file_len ∧
    DiskMatrix.dropLength (DiskMatrix.create pre rows cols rep).header =
      (DiskMatrix.create pre rows cols rep).file_len := by
  rw [Dense.transpose_iterate]
  by_cases hk : k % 2 = 0 <;> simp only [hk, if_true, if_false, reduceIte]
  · exact ⟨rfl, rfl, rfl⟩
  · refine ⟨Nat.mul_comm cols rows, ?_, rfl⟩
    show (HEADER_SIZE + cols * rows * info.size_of) % U64_MOD =
      (HEADER_SIZE + rows * cols * info.size_of) % U64_MOD
    rw [Nat.mul_comm cols rows]

/-- C7: `transpose` changes only the orientation flag and the two dimension
fields: magic, representation, `lda` and the whole data region are
unchanged, the dimension reads swap, and a fresh traversal reports the same
offsets with row/column swapped — the new orientation is visible
immediately. -/
theorem c7_transpose_touches_only_orientation (α : Type) (m : Dense.State α) :
    (Dense.transposeState m).header.magic = m.header.magic ∧
    (Dense.transposeState m).header.representation = m.header.representation ∧
    (Dense.transposeState m).header.lda = m.header.lda ∧
    (Dense.transposeState m).data = m.data ∧
    Dense.num_rows (Dense.transposeState m).header = Dense.num_cols m.header ∧
    Dense.num_cols (Dense.transposeState m).header = Dense.num_rows m.header ∧
    (Dense.transposeState m).header.transposed = !m.header.transposed ∧
    Dense.traversal (Dense.transposeState m).header =
      (Dense.traversal m.header).map Visit.swapRC := by
  refine ⟨rfl, rfl, rfl, rfl, rfl, rfl, rfl, ?_⟩
  show Dense.traversal (Dense.transpose m.header) = _
  unfold Dense.traversal
  rw [Dense.fullFuel_transpose, Dense.gen_transpose]
  have hfl : (Dense.create_index_generator m.header).transposed =
      m.header.transposed := rfl
  rw [← hfl]
  exact ElementIterCommon.run_set_transposed _ _

/-- C8: if `munmap` fails during teardown, `Drop` propagates the failure as
a panic (`Result::unwrap` on an `Err`) in both designs; teardown never
returns normally after a failed release. -/
theorem c8_teardown_panics_on_munmap_failure (info : SupportedType)
    (hDense hDisk : MatrixHeader) (munmapD munmapK : Nat → Except Nat Unit)
    (eD eK : Nat)
    (hfailD : munmapD (Dense.dropLength info hDense) = Except.error eD)
    (hfailK : munmapK (DiskMatrix.dropLength hDisk) = Except.error eK) :
    Dense.dropRun info hDense munmapD = DropOutcome.panicked ∧
    DiskMatrix.dropRun hDisk munmapK = DropOutcome.panicked := by
  unfold Dense.dropRun DiskMatrix.dropRun
  rw [hfailD, hfailK]
  exact ⟨rfl, rfl⟩

/-- Witness for C8 with an environment whose `munmap` always fails with
errno 22. -/
theorem c8_teardown_panics_on_munmap_failure_witness :
    (fun _ : Nat => (Except.error 22 : Except Nat Unit))
        (Dense.dropLength f32Info zeroHeader) = Except.error 22 ∧
    (fun _ : Nat => (Except.error 22 : Except Nat Unit))
        (DiskMatrix.dropLength zeroHeader) = Except.error 22 ∧
    (Dense.dropRun f32Info zeroHeader (fun _ => Except.error 22) =
        DropOutcome.panicked ∧
     DiskMatrix.dropRun zeroHeader (fun _ => Except.error 22) =
        DropOutcome.panicked) :=
  ⟨rfl, rfl,
    c8_teardown_panics_on_munmap_failure f32Info zeroHeader zeroHeader
      (fun _ => Except.error 22) (fun _ => Except.error 22) 22 22 rfl rfl⟩

/-- C9: for any matrix state and any amount of fuel, the read-only and
mutable traversals emit identical sequences of linear offsets, reported
(row, col) pairs, and element values — they differ only in mutability of
the references yielded. -/
theorem c9_read_and_mut_traversals_agree (α : Type) (m : Dense.State α)
    (fuel : Nat) :
    ElementIter.runTrace fuel (Dense.element_iter m) =
      ElementIterMut.runTrace fuel (Dense.element_iter_mut m) :=
  runTrace_eq_aux α fuel (Dense.create_index_generator m.header) m.data

/-- C10: for a matrix created with `rows ≥ 1` and `cols ≥ 1` and any number
of transpose calls, every linear offset the generator emits is strictly
below `rows · cols`, so each yielded element reference stays inside the
mapped data region; and the bound indeed fails when a dimension is zero
(a 2×0 matrix emits offset 0 into an empty data region). -/
theorem c10_emitted_offsets_in_bounds (pre : MatrixHeader)
    (info : SupportedType) (rows cols k : Nat)
    (hr : 1 ≤ rows) (hc : 1 ≤ cols) :
    (∀ v ∈ Dense.traversal (Dense.transpose^[k] (Dense.create pre info rows cols).header),
        v.offset < rows * cols) ∧
    (∃ v ∈ Dense.traversal (Dense.create zeroHeader f32Info 2 0).header,
        ¬ v.offset < 2 * 0) := by
  constructor
  · intro v hv
    unfold Dense.traversal at hv
    rw [Dense.gen_after_transposes] at hv
    refine ElementIterCommon.run_bounded rows cols hc _ _ ?_ v hv
    exact ⟨rfl, rfl, rfl, (Nat.zero_mul cols).symm, show 0 < cols from hc⟩
  · decide

/-- Witness for C10 at a 2×3 matrix after one transpose. -/
theorem c10_emitted_offsets_in_bounds_witness :
    1 ≤ 2 ∧ 1 ≤ 3 ∧
    ((∀ v ∈ Dense.traversal (Dense.transpose^[1] (Dense.create zeroHeader f32Info 2 3).header),
        v.offset < 2 * 3) ∧
     (∃ v ∈ Dense.traversal (Dense.create zeroHeader f32Info 2 0).header,
        ¬ v.offset < 2 * 0)) :=
  ⟨by decide, by decide,
    c10_emitted_offsets_in_bounds zeroHeader f32Info 2 3 1 (by decide) (by decide)⟩

end Oocla
